import Mathlib

/-!
Shallow embedding of the two components of the repository:

* `TestCpp.Vector` — the threshold-scaling container of
  `src/examples/test_cpp.cpp` (instantiated at `int`, as in `main`).
  `push` appends, then, when the length exceeds 10, doubles every
  strictly positive element in place.
* `Sample.DataProcessor` / `Sample.AdvancedProcessor` — the processing
  pipeline of `src/test_samples/sample.cpp`.  State is the stored label
  and the accumulated results.  Batch processing is instrumented with an
  event trace (one `append` event per stored result, in order, plus one
  `notify` event for the derived variant's diagnostic output line) so
  that the ordering of side effects is observable.
-/

namespace TestCpp

/-- State of `Vector<int>` from `src/examples/test_cpp.cpp`: the private
`std::vector<int> data`. -/
structure Vector where
  data : List Int
  deriving DecidableEq, Repr

/-- The default constructor `Vector()` leaves `data` empty. -/
def Vector.empty : Vector := ⟨[]⟩

/-- `Vector::push`: append `item`; if the size then exceeds 10, double
every strictly positive element in place. -/
def Vector.push (v : Vector) (item : Int) : Vector :=
  if (v.data ++ [item]).length > 10 then
    ⟨(v.data ++ [item]).map fun elem => if elem > 0 then elem * 2 else elem⟩
  else
    ⟨v.data ++ [item]⟩

/-- `Vector::size`: returns the element count (as a C++ `int`). -/
def Vector.size (v : Vector) : Int := (v.data.length : Int)

/-- `int fibonacci(int n)` from the same file (incidental scaffolding). -/
def fibonacci : Nat → Nat
  | 0 => 0
  | 1 => 1
  | n + 2 => fibonacci (n + 1) + fibonacci n

theorem push_length (v : Vector) (item : Int) :
    (v.push item).data.length = v.data.length + 1 := by
  unfold Vector.push
  split <;> simp

theorem push_data_of_small (v : Vector) (item : Int)
    (h : v.data.length + 1 ≤ 10) : (v.push item).data = v.data ++ [item] := by
  unfold Vector.push
  rw [if_neg]
  simp only [List.length_append, List.length_cons, List.length_nil]
  omega

theorem foldl_push_data_of_small (items : List Int) :
    ∀ v : Vector, v.data.length + items.length ≤ 10 →
      (List.foldl Vector.push v items).data = v.data ++ items := by
  induction items with
  | nil => intro v _; simp
  | cons x xs ih =>
    intro v h
    simp only [List.length_cons] at h
    have hx : (v.push x).data = v.data ++ [x] := push_data_of_small v x (by omega)
    simp only [List.foldl_cons]
    rw [ih (v.push x) (by rw [push_length]; omega), hx, List.append_assoc]
    simp

theorem foldl_push_length (items : List Int) :
    ∀ v : Vector, (List.foldl Vector.push v items).data.length
      = v.data.length + items.length := by
  induction items with
  | nil => intro v; simp
  | cons x xs ih =>
    intro v
    simp only [List.foldl_cons, List.length_cons]
    rw [ih (v.push x), push_length]
    omega

theorem push_preserves_nonpos (v : Vector) (item : Int) (i : Nat) (e : Int)
    (hi : v.data[i]? = some e) (he : e ≤ 0) :
    (v.push item).data[i]? = some e := by
  have hlt : i < v.data.length := by
    by_contra hge
    rw [List.getElem?_eq_none (by omega)] at hi
    exact Option.noConfusion hi
  unfold Vector.push
  split
  · simp only [List.getElem?_map, List.getElem?_append_left hlt, hi,
      Option.map_some']
    rw [if_neg (by omega)]
  · simp [List.getElem?_append_left hlt, hi]

theorem foldl_push_preserves_nonpos (items : List Int) :
    ∀ (v : Vector) (i : Nat) (e : Int), v.data[i]? = some e → e ≤ 0 →
      (List.foldl Vector.push v items).data[i]? = some e := by
  induction items with
  | nil => intro v i e hi _; exact hi
  | cons x xs ih =>
    intro v i e hi he
    simp only [List.foldl_cons]
    exact ih (v.push x) i e (push_preserves_nonpos v x i e hi he) he

end TestCpp

/-- C3: once the container's length exceeds 10, any push runs a full pass:
every stored element that is strictly positive is doubled by that push, so it
strictly increases, and it stays strictly positive for the next push. -/
theorem push_past_threshold_doubles_positive (v : TestCpp.Vector) (item : Int)
    (i : Nat) (e : Int) (hlen : 10 < v.data.length)
    (hi : v.data[i]? = some e) (he : 0 < e) :
    (v.push item).data[i]? = some (e * 2) ∧ e < e * 2 ∧ 0 < e * 2 := by
  have hlt : i < v.data.length := by
    by_contra hge
    rw [List.getElem?_eq_none (by omega)] at hi
    exact Option.noConfusion hi
  refine ⟨?_, by omega, by omega⟩
  unfold TestCpp.Vector.push
  rw [if_pos (by simp only [List.length_append, List.length_cons,
    List.length_nil]; omega)]
  simp only [List.getElem?_map, List.getElem?_append_left hlt, hi,
    Option.map_some']
  rw [if_pos he]

/-- Witness for C3 at a concrete container of eleven ones. -/
theorem push_past_threshold_doubles_positive_witness :
    10 < (TestCpp.Vector.mk (List.replicate 11 1)).data.length ∧
    (TestCpp.Vector.mk (List.replicate 11 1)).data[0]? = some 1 ∧
    (0 : Int) < 1 ∧
    (((TestCpp.Vector.mk (List.replicate 11 1)).push 5).data[0]? = some (1 * 2) ∧
      (1 : Int) < 1 * 2 ∧ (0 : Int) < 1 * 2) :=
  ⟨by decide, by decide, by decide,
    push_past_threshold_doubles_positive (TestCpp.Vector.mk (List.replicate 11 1))
      5 0 1 (by decide) (by decide) (by decide)⟩

/-- C4: as long as at most 10 values have been pushed, `size()` equals the
number of pushes and the stored sequence is exactly the pushed values. -/
theorem pushes_below_threshold_unaltered (items : List Int)
    (h : items.length ≤ 10) :
    (List.foldl TestCpp.Vector.push TestCpp.Vector.empty items).data = items ∧
    (List.foldl TestCpp.Vector.push TestCpp.Vector.empty items).size
      = (items.length : Int) := by
  have hd : (List.foldl TestCpp.Vector.push TestCpp.Vector.empty items).data
      = items := by
    rw [TestCpp.foldl_push_data_of_small items TestCpp.Vector.empty
      (by simp [TestCpp.Vector.empty]; omega)]
    simp [TestCpp.Vector.empty]
  exact ⟨hd, by simp [TestCpp.Vector.size, hd]⟩

/-- Witness for C4 on the three-element batch `[1, 2, 3]`. -/
theorem pushes_below_threshold_unaltered_witness :
    ([1, 2, 3] : List Int).length ≤ 10 ∧
    ((List.foldl TestCpp.Vector.push TestCpp.Vector.empty [1, 2, 3]).data
        = [1, 2, 3] ∧
      (List.foldl TestCpp.Vector.push TestCpp.Vector.empty [1, 2, 3]).size
        = (([1, 2, 3] : List Int).length : Int)) :=
  ⟨by decide, pushes_below_threshold_unaltered [1, 2, 3] (by decide)⟩

/-- C5: a stored element whose value is at most zero is never modified by any
threshold pass: it survives any further sequence of pushes unchanged. -/
theorem nonpositive_elements_never_modified (v : TestCpp.Vector)
    (items : List Int) (i : Nat) (e : Int)
    (hi : v.data[i]? = some e) (he : e ≤ 0) :
    (List.foldl TestCpp.Vector.push v items).data[i]? = some e :=
  TestCpp.foldl_push_preserves_nonpos items v i e hi he

/-- Witness for C5: a container holding `-3` pushed twelve more times. -/
theorem nonpositive_elements_never_modified_witness :
    (TestCpp.Vector.mk [-3]).data[0]? = some (-3) ∧
    (-3 : Int) ≤ 0 ∧
    (List.foldl TestCpp.Vector.push (TestCpp.Vector.mk [-3])
        (List.replicate 12 1)).data[0]? = some (-3) :=
  ⟨by decide, by decide,
    nonpositive_elements_never_modified (TestCpp.Vector.mk [-3])
      (List.replicate 12 1) 0 (-3) (by decide) (by decide)⟩

/-- C8: after any sequence of pushes on a container created empty, `size()`
returns exactly the number of pushes. -/
theorem size_eq_number_of_pushes (items : List Int) :
    (List.foldl TestCpp.Vector.push TestCpp.Vector.empty items).size
      = (items.length : Int) := by
  unfold TestCpp.Vector.size
  rw [TestCpp.foldl_push_length items TestCpp.Vector.empty]
  simp [TestCpp.Vector.empty]

/-- C1 counterexample: push the value 1 twelve times from empty.  A second
full pass does run, but the twelfth element ends at 2, not 4: the sequence is
eleven fours followed by a single 2, so not every element equals 4. -/
theorem twelfth_push_of_one_not_all_four :
    (List.foldl TestCpp.Vector.push TestCpp.Vector.empty
        (List.replicate 12 1)).data = List.replicate 11 4 ++ [2] ∧
    ¬ (∀ e ∈ (List.foldl TestCpp.Vector.push TestCpp.Vector.empty
        (List.replicate 12 1)).data, e = 4) := by
  constructor
  · decide
  · decide

/-- C1 (amended): after pushing 1 eleven times from empty, every element
equals 2; after a twelfth push of a positive value `v`, a second full pass
runs, the first eleven elements each equal 4, and the twelfth equals `v * 2`
(so all twelve equal 4 exactly when `v = 2`). -/
theorem threshold_scenario_eleven_then_push (v : Int) (h : 0 < v) :
    (List.foldl TestCpp.Vector.push TestCpp.Vector.empty
        (List.replicate 11 1)).data = List.replicate 11 2 ∧
    ((List.foldl TestCpp.Vector.push TestCpp.Vector.empty
        (List.replicate 11 1)).push v).data = List.replicate 11 4 ++ [v * 2] := by
  have hv : List.foldl TestCpp.Vector.push TestCpp.Vector.empty
      (List.replicate 11 1) = TestCpp.Vector.mk (List.replicate 11 2) := by
    decide
  refine ⟨by rw [hv], ?_⟩
  rw [hv]
  unfold TestCpp.Vector.push
  rw [if_pos (by simp)]
  rw [List.map_append, List.map_replicate]
  simp only [List.map_cons, List.map_nil]
  rw [if_pos h]
  norm_num

/-- Witness for C1 (amended) at the twelfth value 2, where all elements
indeed end at 4. -/
theorem threshold_scenario_eleven_then_push_witness :
    (0 : Int) < 2 ∧
    ((List.foldl TestCpp.Vector.push TestCpp.Vector.empty
        (List.replicate 11 1)).data = List.replicate 11 2 ∧
      ((List.foldl TestCpp.Vector.push TestCpp.Vector.empty
        (List.replicate 11 1)).push 2).data = List.replicate 11 4 ++ [2 * 2]) :=
  ⟨by decide, threshold_scenario_eleven_then_push 2 (by decide)⟩

namespace Sample

/-- Observable side effects of batch processing in
`src/test_samples/sample.cpp`: one `append` event is recorded per result
stored by `process_item` (in the order the results are stored), and one
`notify` event per diagnostic line written to `std::cout`. -/
inductive Event where
  | notify (msg : String)
  | append (value : Int)
  deriving DecidableEq, Repr

/-- `true` exactly on notification events. -/
def Event.isNotify : Event → Bool
  | .notify _ => true
  | .append _ => false

/-- State of `DataProcessor`: the stored `name` and the accumulated results
vector `data`. -/
structure DataProcessor where
  name : String
  data : List Int
  deriving DecidableEq, Repr

/-- `DataProcessor::DataProcessor(name)`: stores the label, results empty. -/
def DataProcessor.init (name : String) : DataProcessor := ⟨name, []⟩

/-- `DataProcessor::create_default()`: a processor labelled `"default"`. -/
def DataProcessor.create_default : DataProcessor := DataProcessor.init "default"

/-- `DataProcessor::process_item(item)`: appends `item * 2` to `data`. -/
def DataProcessor.process_item (p : DataProcessor) (item : Int) : DataProcessor :=
  { p with data := p.data ++ [item * 2] }

/-- One loop iteration of `DataProcessor::process_data`: call `process_item`
on the current item and record the corresponding `append` event. -/
def DataProcessor.step (acc : DataProcessor × List Event) (item : Int) :
    DataProcessor × List Event :=
  (acc.1.process_item item, acc.2 ++ [Event.append (item * 2)])

/-- `DataProcessor::process_data(items)`: calls `process_item` once per
element of `items`, in input order; returns the new state and the trace of
events the call produced. -/
def DataProcessor.process_data (p : DataProcessor) (items : List Int) :
    DataProcessor × List Event :=
  items.foldl DataProcessor.step (p, [])

/-- `DataProcessor::get_data()`: read-only view of the results. -/
def DataProcessor.get_data (p : DataProcessor) : List Int := p.data

/-- `AdvancedProcessor::AdvancedProcessor()`: the derived variant adds no
fields; its state is the inherited one, constructed with label
`"advanced"` and empty results. -/
def AdvancedProcessor.init : DataProcessor := DataProcessor.init "advanced"

/-- `AdvancedProcessor::process_data(items)` (override): first writes the
diagnostic line `"Advanced processing..."` to `std::cout`, then delegates to
`DataProcessor::process_data` on the same `items`; the `notify` event
precedes every event of the delegated call in the trace. -/
def AdvancedProcessor.process_data (p : DataProcessor) (items : List Int) :
    DataProcessor × List Event :=
  ((DataProcessor.process_data p items).1,
    Event.notify "Advanced processing..."
      :: (DataProcessor.process_data p items).2)

theorem step_foldl_eq (items : List Int) :
    ∀ (p : DataProcessor) (tr : List Event),
      items.foldl DataProcessor.step (p, tr)
        = ({ p with data := p.data ++ items.map fun i => i * 2 },
            tr ++ items.map fun i => Event.append (i * 2)) := by
  induction items with
  | nil => intro p tr; simp
  | cons x xs ih =>
    intro p tr
    simp only [List.foldl_cons, List.map_cons]
    rw [show DataProcessor.step (p, tr) x
      = ({ p with data := p.data ++ [x * 2] }, tr ++ [Event.append (x * 2)])
      from rfl, ih]
    simp

theorem process_data_eq (p : DataProcessor) (items : List Int) :
    DataProcessor.process_data p items
      = ({ p with data := p.data ++ items.map fun i => i * 2 },
          items.map fun i => Event.append (i * 2)) := by
  unfold DataProcessor.process_data
  rw [step_foldl_eq]
  simp

end Sample

/-- C2: the base variant's batch processing appends exactly one result per
input item, in input order, each twice the item; on the batch
`[1, 2, 3, 4, 5]` from a fresh default processor the results are
`[2, 4, 6, 8, 10]`, of the same length as the input. -/
theorem process_data_doubles_each_item (p : Sample.DataProcessor)
    (items : List Int) :
    (Sample.DataProcessor.process_data p items).1.get_data
        = p.get_data ++ items.map (fun i => i * 2) ∧
    (Sample.DataProcessor.process_data
        Sample.DataProcessor.create_default [1, 2, 3, 4, 5]).1.get_data
        = [2, 4, 6, 8, 10] ∧
    (Sample.DataProcessor.process_data
        Sample.DataProcessor.create_default [1, 2, 3, 4, 5]).1.get_data.length
        = ([1, 2, 3, 4, 5] : List Int).length := by
  refine ⟨?_, by decide, by decide⟩
  rw [Sample.process_data_eq]
  simp [Sample.DataProcessor.get_data]

/-- C6: on any batch, the derived variant reaches exactly the state the base
variant would reach, and its trace is exactly one notification followed by
the appends of the delegated base call: the single `notify` event precedes
every `append` event. -/
theorem advanced_notify_then_delegate (p : Sample.DataProcessor)
    (items : List Int) :
    (Sample.AdvancedProcessor.process_data p items).1
        = (Sample.DataProcessor.process_data p items).1 ∧
    (Sample.AdvancedProcessor.process_data p items).2
        = Sample.Event.notify "Advanced processing..."
            :: items.map (fun i => Sample.Event.append (i * 2)) ∧
    ((Sample.AdvancedProcessor.process_data p items).2.countP
        Sample.Event.isNotify) = 1 := by
  refine ⟨rfl, ?_, ?_⟩
  · show Sample.Event.notify "Advanced processing..."
        :: (Sample.DataProcessor.process_data p items).2 = _
    rw [Sample.process_data_eq]
  · show ((Sample.Event.notify "Advanced processing..."
        :: (Sample.DataProcessor.process_data p items).2).countP
          Sample.Event.isNotify) = 1
    rw [Sample.process_data_eq]
    simp only [List.countP_cons, List.countP_map]
    rw [show ((Sample.Event.isNotify ∘ fun i : Int => Sample.Event.append (i * 2))
      = fun _ => false) from rfl]
    simp [Sample.Event.isNotify]

/-- C7: `process_item` and batch processing (both variants) never change the
stored label and never change previously stored results — they only append;
an empty batch changes nothing at all. -/
theorem processing_preserves_label_and_old_results (p : Sample.DataProcessor)
    (item : Int) (items : List Int) :
    (p.process_item item).name = p.name ∧
    (p.process_item item).data = p.data ++ [item * 2] ∧
    (Sample.DataProcessor.process_data p items).1.name = p.name ∧
    (Sample.DataProcessor.process_data p items).1.data
        = p.data ++ items.map (fun i => i * 2) ∧
    (Sample.AdvancedProcessor.process_data p items).1.name = p.name ∧
    (Sample.AdvancedProcessor.process_data p items).1.data
        = p.data ++ items.map (fun i => i * 2) ∧
    (Sample.DataProcessor.process_data p []).1 = p ∧
    (Sample.AdvancedProcessor.process_data p []).1 = p := by
  refine ⟨rfl, rfl, ?_, ?_, ?_, ?_, ?_, ?_⟩ <;>
    first
      | (show (Sample.DataProcessor.process_data p _).1.name = _;
          rw [Sample.process_data_eq])
      | (show (Sample.DataProcessor.process_data p _).1.data = _;
          rw [Sample.process_data_eq])
      | (show (Sample.DataProcessor.process_data p _).1 = _;
          rw [Sample.process_data_eq]; simp)

/-- C9: the named factory yields label `"default"` with empty results, and
the derived variant's constructor yields label `"advanced"` with empty
results. -/
theorem construction_yields_label_and_empty_results :
    Sample.DataProcessor.create_default.name = "default" ∧
    Sample.DataProcessor.create_default.get_data = [] ∧
    Sample.AdvancedProcessor.init.name = "advanced" ∧
    Sample.AdvancedProcessor.init.get_data = [] :=
  ⟨rfl, rfl, rfl, rfl⟩

/-- C10: batch processing is a homomorphism for concatenation — processing
`a` and then `b` leaves the base variant in the same state as one call on
`a ++ b`. -/
theorem process_data_concat_homomorphism (p : Sample.DataProcessor)
    (a b : List Int) :
    (Sample.DataProcessor.process_data
        (Sample.DataProcessor.process_data p a).1 b).1
      = (Sample.DataProcessor.process_data p (a ++ b)).1 := by
  simp [Sample.process_data_eq]
